import Mathlib

/-!
Shallow embedding of the Zoho Desk n8n integration node
(`nodes/ZohoDesk/ZohoDesk.node.ts`): the payload builder / validator
helpers, the paginated fetch helper, and the per-item execute loop's
error handling, together with proofs of the specification's testable
properties.

JavaScript runtime values are modelled by `JSVal`; JS objects are
association lists in insertion order (property assignment keeps the
position of an existing key and appends a fresh key, matching JS
enumeration order for string keys).  Fallible TypeScript code (functions
that `throw`) is modelled with `Except String`.
-/

/-- Model of a JavaScript runtime value as the node manipulates them:
`undefined`, `null`, booleans, (integer) numbers, strings, arrays and
plain objects. -/
inductive JSVal where
  | undefined : JSVal
  | null : JSVal
  | bool (b : Bool) : JSVal
  | num (n : Int) : JSVal
  | str (s : String) : JSVal
  | arr (xs : List JSVal) : JSVal
  | obj (fs : List (String × JSVal)) : JSVal

/-- Objects in the model: association lists of string keys. -/
abbrev JSObj := List (String × JSVal)

/-- Property read `o[k]` on an object: first binding wins, a missing key
reads as `undefined` (JS semantics). -/
def getField (fs : JSObj) (k : String) : JSVal :=
  match fs.lookup k with
  | some v => v
  | none => .undefined

/-- Optional property lookup, used to state presence/absence of a key. -/
def lookupField (fs : JSObj) (k : String) : Option JSVal :=
  fs.lookup k

/-- Property write `o[k] = v`: overwrite in place when the key exists,
append otherwise (JS string-key enumeration order). -/
def setField (fs : JSObj) (k : String) (v : JSVal) : JSObj :=
  if fs.any (fun p => p.1 = k) then
    fs.map (fun p => if p.1 = k then (k, v) else p)
  else
    fs ++ [(k, v)]

/-- Property read on an arbitrary value: only objects expose the node's
data keys; every other value reads as `undefined`. -/
def jsIndex (v : JSVal) (k : String) : JSVal :=
  match v with
  | .obj fs => getField fs k
  | _ => .undefined

/-- JS truthiness: `undefined`, `null`, `false`, `0` and `""` are falsy,
everything else (including every object and array) is truthy. -/
def truthy : JSVal → Bool
  | .undefined => false
  | .null => false
  | .bool b => b
  | .num n => n != 0
  | .str s => s ≠ ""
  | .arr _ => true
  | .obj _ => true

/-- WhiteSpace and LineTerminator code points recognised by
`String.prototype.trim`. -/
def isJsSpace (c : Char) : Bool :=
  c = ' ' || c = '\t' || c = '\n' || c = '\r' ||
  c = Char.ofNat 11 || c = Char.ofNat 12 ||
  c = Char.ofNat 0xa0 || c = Char.ofNat 0x1680 ||
  (0x2000 ≤ c.toNat && c.toNat ≤ 0x200a) ||
  c = Char.ofNat 0x2028 || c = Char.ofNat 0x2029 ||
  c = Char.ofNat 0x202f || c = Char.ofNat 0x205f ||
  c = Char.ofNat 0x3000 || c = Char.ofNat 0xfeff

/-- Model of `String.prototype.trim`. -/
def jsTrim (s : String) : String :=
  String.mk (((s.data.dropWhile isJsSpace).reverse.dropWhile isJsSpace).reverse)

/-- Split a character list at every occurrence of a separator character
(model of `String.prototype.split` with a one-character separator). -/
def splitOnChar (sep : Char) : List Char → List (List Char)
  | [] => [[]]
  | c :: rest =>
    match splitOnChar sep rest with
    | [] => [[c]]
    | g :: gs => if c = sep then [] :: g :: gs else (c :: g) :: gs

/-- String-level wrapper of `splitOnChar`. -/
def jsSplit (s : String) (sep : Char) : List String :=
  (splitOnChar sep s.data).map String.mk

/-- Suffix test (model of `String.prototype.endsWith` as used on field
names). -/
def strEndsWith (s suffix : String) : Bool :=
  List.isPrefixOf suffix.data.reverse s.data.reverse

mutual

/-- Model of the JS `String(value)` coercion for the values the node
feeds to it. -/
def jsToString : JSVal → String
  | .undefined => "undefined"
  | .null => "null"
  | .bool b => cond b "true" "false"
  | .num n => toString n
  | .str s => s
  | .arr xs => String.intercalate "," (jsArrParts xs)
  | .obj _ => "[object Object]"

/-- Elements of `Array.prototype.toString`: `undefined` and `null`
render as empty segments. -/
def jsArrParts : List JSVal → List String
  | [] => []
  | .undefined :: rest => "" :: jsArrParts rest
  | .null :: rest => "" :: jsArrParts rest
  | v :: rest => jsToString v :: jsArrParts rest

end

/-- Model of `field.charAt(0).toUpperCase() + field.slice(1)` used to
build display names in `addOptionalFields`. -/
def capitalizeField (s : String) : String :=
  match s.data with
  | [] => ""
  | c :: cs => String.mk (c.toUpper :: cs)

/-- Minimum number of digits for a valid Zoho Desk ticket ID
(`MIN_TICKET_ID_LENGTH`). -/
def MIN_TICKET_ID_LENGTH : Nat := 10

/-- Line terminators that the regex metacharacter `.` does not match. -/
def isLineTerminator (c : Char) : Bool :=
  c = '\n' || c = '\r' || c = Char.ofNat 0x2028 || c = Char.ofNat 0x2029

/-- Decides whether `\x7b\x7b.+?\x7d\x7d` matches starting at the head of
`cs`: two opening braces, at least one non-line-terminator character,
then two closing braces somewhere later. -/
def n8nExprMatchAt (cs : List Char) : Bool :=
  match cs with
  | '{' :: '{' :: rest =>
    (List.range (rest.length + 1)).any (fun k =>
      decide (1 ≤ k) &&
      (rest.take k).all (fun c => !isLineTerminator c) &&
      (rest.drop k).take 2 = ['}', '}'])
  | _ => false

/-- Model of `N8N_EXPRESSION_PATTERN.test`, the unanchored regex
`/\x7b\x7b.+?\x7d\x7d/`: true when a match starts at some position. -/
def n8nExpressionTest (s : String) : Bool :=
  (List.range s.data.length).any (fun i => n8nExprMatchAt (s.data.drop i))

/-- Model of `ZOHO_DESK_ID_PATTERN.test` for `/^\d\x7b10,\x7d$/`: an
all-digit string of at least 10 characters. -/
def zohoDeskIdTest (s : String) : Bool :=
  decide (10 ≤ s.data.length) && s.data.all (fun c => c.isDigit)

/-- Model of `TICKET_ID_PATTERN.test`; the pattern is built from
`MIN_TICKET_ID_LENGTH` and is the same `/^\d\x7b10,\x7d$/` shape. -/
def ticketIdTest (s : String) : Bool :=
  decide (MIN_TICKET_ID_LENGTH ≤ s.data.length) && s.data.all (fun c => c.isDigit)

/-- Embedding of `isValidTicketId`: trim, accept n8n expressions
outright, otherwise require the ticket-ID digit pattern. -/
def isValidTicketId (ticketId : String) : Bool :=
  let trimmed := jsTrim ticketId
  if n8nExpressionTest trimmed then
    true
  else
    ticketIdTest trimmed

/-- Documentation links baked into the node's error messages. -/
def ZOHO_DESK_CREATE_TICKET_DOCS : String :=
  "https://desk.zoho.com/support/APIDocument#Tickets#Tickets_CreateTicket"

/-- Update-ticket documentation link. -/
def ZOHO_DESK_UPDATE_TICKET_DOCS : String :=
  "https://desk.zoho.com/support/APIDocument#Tickets#Tickets_UpdateTicket"

/-- Embedding of `isValidZohoDeskId`: returns `true` for n8n expressions,
throws an `ApplicationError` naming the field when the digit pattern
fails, and returns `true` otherwise. -/
def isValidZohoDeskId (id : String) (fieldName : String) : Except String Bool :=
  let trimmed := jsTrim id
  if n8nExpressionTest trimmed then
    .ok true
  else if !zohoDeskIdTest trimmed then
    .error ("Invalid " ++ fieldName ++ " format: \"" ++ trimmed ++ "\". " ++
      fieldName ++ " must be a numeric value with at least 10 digits.")
  else
    .ok true

/-- Embedding of the `FIELD_LENGTH_LIMITS` table: only `email` carries a
documented limit (254, RFC 5321). -/
def FIELD_LENGTH_LIMITS : List (String × Nat) := [("email", 254)]

/-- Embedding of `validateFieldLength`: throws when a limit is
configured (and nonzero, since `0` is falsy in the JS guard) and the
value exceeds it, otherwise returns the value unchanged. -/
def validateFieldLength (value : String) (maxLength : Option Nat)
    (fieldName : Option String) : Except String String :=
  match maxLength with
  | some m =>
    if m ≠ 0 ∧ m < value.length then
      .error ((fieldName.getD "Field") ++ " exceeds maximum length of " ++
        toString m ++ " characters (" ++ toString value.length ++
        " provided). Please shorten your input and try again.")
    else
      .ok value
  | none => .ok value

/-- Characters the RFC 5322 email regex allows in the local part. -/
def emailLocalChar (c : Char) : Bool :=
  c.isAlphanum ||
  (String.mk ((".!#$%&*+/=?^_~-".data) ++
    [Char.ofNat 39, Char.ofNat 0x60, Char.ofNat 0x7b, Char.ofNat 0x7c, Char.ofNat 0x7d])).contains c

/-- Domain labels of the email regex: 1 to 63 characters, alphanumeric
first and last character, alphanumeric or hyphen in between. -/
def emailLabelOk (l : List Char) : Bool :=
  match l with
  | [] => false
  | c :: rest =>
    c.isAlphanum &&
    decide (l.length ≤ 63) &&
    (match rest.reverse with
     | [] => true
     | lastc :: midRev =>
       lastc.isAlphanum && midRev.all (fun c => c.isAlphanum || c = '-'))

/-- Matchability of `RFC5322_EMAIL_PATTERN`: one `@`, a nonempty local
part over the local character class, and a dot-separated domain of
valid labels. -/
def rfc5322EmailTest (s : String) : Bool :=
  match jsSplit s '@' with
  | [local_, domain] =>
    decide (local_.length ≠ 0) && local_.data.all emailLocalChar &&
    (jsSplit domain '.').all (fun l => emailLabelOk l.data)
  | _ => false

/-- Embedding of `isValidEmail`: regex shape plus the RFC 5321 length
ceiling of 254 characters. -/
def isValidEmail (email : String) : Bool :=
  rfc5322EmailTest email && decide (email.length ≤ 254)

/-- Embedding of `parseCommaSeparatedList`: split on commas, trim each
segment, drop empties; `undefined` input gives the empty list. -/
def parseCommaSeparatedList (value : Option String) : List String :=
  match value with
  | none => []
  | some v =>
    if v = "" then []
    else ((jsSplit v ',').map jsTrim).filter (fun item => item.length > 0)

/-- Insignificant whitespace accepted between JSON tokens. -/
def jsonSkipWs (cs : List Char) : List Char :=
  cs.dropWhile (fun c => c = ' ' || c = '\t' || c = '\n' || c = '\r')

/-- String body parser of the JSON.parse model: consumes characters
after the opening quote up to the closing quote, handling the
single-character escapes (unicode escapes are outside this model). -/
def parseJsonStringBody : List Char → List Char → Except String (String × List Char)
  | [], _ => .error "Unterminated string in JSON"
  | c :: rest, acc =>
    if c = Char.ofNat 34 then
      .ok (String.mk acc.reverse, rest)
    else if c = '\\' then
      match rest with
      | [] => .error "Unterminated string in JSON"
      | e :: rest2 =>
        if e = Char.ofNat 34 then parseJsonStringBody rest2 (Char.ofNat 34 :: acc)
        else if e = '\\' then parseJsonStringBody rest2 ('\\' :: acc)
        else if e = '/' then parseJsonStringBody rest2 ('/' :: acc)
        else if e = 'b' then parseJsonStringBody rest2 (Char.ofNat 8 :: acc)
        else if e = 'f' then parseJsonStringBody rest2 (Char.ofNat 12 :: acc)
        else if e = 'n' then parseJsonStringBody rest2 ('\n' :: acc)
        else if e = 'r' then parseJsonStringBody rest2 ('\r' :: acc)
        else if e = 't' then parseJsonStringBody rest2 ('\t' :: acc)
        else .error "Bad escape in JSON string"
    else
      parseJsonStringBody rest (c :: acc)

/-- Integer numeral parser of the JSON.parse model (the node only ever
round-trips integral custom-field numbers; fractions and exponents are
outside this model). -/
def parseJsonNumber (cs : List Char) : Except String (Int × List Char) :=
  let (neg, cs2) :=
    match cs with
    | '-' :: rest => (true, rest)
    | _ => (false, cs)
  let digits := cs2.takeWhile (fun c => c.isDigit)
  let rest := cs2.dropWhile (fun c => c.isDigit)
  if digits = [] then
    .error "Unexpected token in JSON"
  else
    let n : Nat := digits.foldl (fun acc c => acc * 10 + (c.toNat - 48)) 0
    .ok (if neg then -(n : Int) else (n : Int), rest)

mutual

/-- Value parser of the JSON.parse model, fuelled by the input length. -/
def parseJsonValue : Nat → List Char → Except String (JSVal × List Char)
  | 0, _ => .error "JSON input too deeply nested"
  | fuel + 1, cs =>
    match jsonSkipWs cs with
    | [] => .error "Unexpected end of JSON input"
    | c :: rest =>
      if c = Char.ofNat 34 then
        (match parseJsonStringBody rest [] with
         | .ok (s, r) => .ok (.str s, r)
         | .error e => .error e)
      else if c = '[' then
        parseJsonElements fuel rest []
      else if c = Char.ofNat 0x7b then
        parseJsonMembers fuel rest []
      else if (c :: rest).take 4 = "true".data then
        .ok (.bool true, (c :: rest).drop 4)
      else if (c :: rest).take 5 = "false".data then
        .ok (.bool false, (c :: rest).drop 5)
      else if (c :: rest).take 4 = "null".data then
        .ok (.null, (c :: rest).drop 4)
      else if c = '-' || c.isDigit then
        (match parseJsonNumber (c :: rest) with
         | .ok (n, r) => .ok (.num n, r)
         | .error e => .error e)
      else
        .error ("Unexpected token " ++ String.mk [c] ++ " in JSON")

/-- Array tail parser: called just after `[` or after a comma. -/
def parseJsonElements : Nat → List Char → List JSVal → Except String (JSVal × List Char)
  | 0, _, _ => .error "JSON input too deeply nested"
  | fuel + 1, cs, acc =>
    match jsonSkipWs cs with
    | ']' :: rest =>
      if acc.isEmpty then .ok (.arr [], rest)
      else .error "Unexpected token ] in JSON"
    | cs2 =>
      match parseJsonValue fuel cs2 with
      | .error e => .error e
      | .ok (v, r) =>
        match jsonSkipWs r with
        | ',' :: rest => parseJsonElements fuel rest (v :: acc)
        | ']' :: rest => .ok (.arr (v :: acc).reverse, rest)
        | _ => .error "Expected , or ] in JSON array"

/-- Object member parser: called just after an opening brace or after a
comma. -/
def parseJsonMembers : Nat → List Char → JSObj → Except String (JSVal × List Char)
  | 0, _, _ => .error "JSON input too deeply nested"
  | fuel + 1, cs, acc =>
    match jsonSkipWs cs with
    | c :: rest =>
      if c = Char.ofNat 0x7d then
        if acc.isEmpty then .ok (.obj [], rest)
        else .error "Unexpected token in JSON object"
      else if c = Char.ofNat 34 then
        match parseJsonStringBody rest [] with
        | .error e => .error e
        | .ok (k, r) =>
          match jsonSkipWs r with
          | ':' :: r2 =>
            match parseJsonValue fuel r2 with
            | .error e => .error e
            | .ok (v, r3) =>
              match jsonSkipWs r3 with
              | ',' :: r4 => parseJsonMembers fuel r4 (setField acc k v)
              | c2 :: r4 =>
                if c2 = Char.ofNat 0x7d then .ok (.obj (setField acc k v), r4)
                else .error "Expected , or closing brace in JSON object"
              | [] => .error "Unexpected end of JSON input"
          | _ => .error "Expected : in JSON object"
      else
        .error "Expected string key in JSON object"
    | [] => .error "Unexpected end of JSON input"

end

/-- Model of the host `JSON.parse`: parse one value, then require only
trailing whitespace. -/
def jsonParse (s : String) : Except String JSVal :=
  match parseJsonValue (s.data.length + 1) s.data with
  | .error e => .error e
  | .ok (v, rest) =>
    if jsonSkipWs rest = [] then .ok v
    else .error "Unexpected non-whitespace character after JSON data"

/-- Embedding of `isPlainObject`: `typeof value === 'object'`, not
`null`, not an array. -/
def isPlainObject : JSVal → Bool
  | .obj _ => true
  | _ => false

/-- Substring test used to model `String.prototype.includes`. -/
def containsSubstr (s sub : String) : Bool :=
  (List.range (s.data.length + 1)).any (fun i =>
    (s.data.drop i).take sub.data.length = sub.data)

/-- Error text thrown when the parsed custom fields are not a plain
object. -/
def cfObjectErrorMsg : String :=
  "Custom fields must be a JSON object, not an array or primitive value. See: " ++
  ZOHO_DESK_CREATE_TICKET_DOCS

/-- One entry of the sanitising loop of `parseCustomFields`: string
values are length checked (no limit configured) and copied,
`null`/`undefined` entries are dropped, every other value is copied
untouched. -/
def sanitizeCustomFieldsStep (acc : JSObj) (kv : String × JSVal) : Except String JSObj :=
  match kv.2 with
  | .str s =>
    (validateFieldLength s none (some ("Custom field \"" ++ kv.1 ++ "\""))).map
      (fun s2 => setField acc kv.1 (.str s2))
  | .null => .ok acc
  | .undefined => .ok acc
  | v => .ok (setField acc kv.1 v)

/-- Sanitising loop of `parseCustomFields` over all entries. -/
def sanitizeCustomFields (fs : JSObj) : Except String JSObj :=
  fs.foldlM sanitizeCustomFieldsStep []

/-- Body of the `try` block of `parseCustomFields`: parse a string input
with `JSON.parse`, keep a pre-parsed input as is, throw unless the
result `isPlainObject`, then sanitise the entries. -/
def parseCustomFieldsRaw (cf : JSVal) : Except String JSVal := do
  let parsed ← (match cf with
    | .str s => jsonParse s
    | v => Except.ok v)
  match parsed with
  | .obj fs => (sanitizeCustomFields fs).map JSVal.obj
  | _ => .error cfObjectErrorMsg

/-- Embedding of `parseCustomFields` with its `catch` clause: validation
errors (object-shape and length errors, recognised by their message
text) are re-thrown unchanged, everything else is wrapped as a JSON
parse failure with the parser's message embedded. -/
def parseCustomFields (cf : JSVal) : Except String JSVal :=
  match parseCustomFieldsRaw cf with
  | .ok v => .ok v
  | .error e =>
    if containsSubstr e "Custom fields must be a JSON object" ||
       containsSubstr e "exceeds maximum length" then
      .error e
    else
      .error ("Custom fields must be valid JSON. Parse error: " ++ e ++
        ". Please ensure your JSON is properly formatted, e.g., \x7b\"cf_field\": \"value\"\x7d. " ++
        "See: " ++ ZOHO_DESK_CREATE_TICKET_DOCS)

/-- Single-field step of `addOptionalFields`: skip `undefined` sources,
validate string values (ID shape when the name ends in `Id` and the
trimmed value is nonempty, then the configured length limit) and copy
every other value unchanged. -/
def addOptionalFieldsStep (source : JSObj) (body : JSObj) (field : String) :
    Except String JSObj :=
  match getField source field with
  | .undefined => .ok body
  | .str s => do
    let fieldDisplayName := capitalizeField field
    let _ ←
      (if strEndsWith field "Id" ∧ jsTrim s ≠ "" then
        isValidZohoDeskId s fieldDisplayName
      else
        Except.ok true)
    let maxLength := FIELD_LENGTH_LIMITS.lookup field
    let v ← validateFieldLength s maxLength (some fieldDisplayName)
    .ok (setField body field (.str v))
  | v => .ok (setField body field v)

/-- Embedding of `addOptionalFields`: fold the per-field step over the
given field-name list. -/
def addOptionalFields (body : JSObj) (source : JSObj) (fields : List String) :
    Except String JSObj :=
  fields.foldlM (addOptionalFieldsStep source) body

/-- Embedding of `addContactField`: skip `null`/`undefined`, reject
non-scalar values, trim the `String(...)` coercion, skip when empty,
length check, extra email-format check for the `email` field, then
assign. -/
def addContactField (contact : JSObj) (contactValues : JSObj)
    (fieldName fieldLabel : String) (maxLength : Option Nat) :
    Except String JSObj :=
  match getField contactValues fieldName with
  | .undefined => .ok contact
  | .null => .ok contact
  | v =>
    match v with
    | .str _ | .num _ => do
      let fieldStr := jsTrim (jsToString v)
      if fieldStr ≠ "" then do
        let cleaned ← validateFieldLength fieldStr maxLength
          (some ("Contact " ++ fieldLabel))
        if fieldName = "email" ∧ !isValidEmail cleaned then
          .error ("Contact validation failed: Invalid email format \"" ++ cleaned ++
            "\". See: " ++ ZOHO_DESK_CREATE_TICKET_DOCS)
        else
          .ok (setField contact fieldName (.str cleaned))
      else
        .ok contact
    | _ =>
      .error ("Contact validation failed: " ++ fieldLabel ++
        " must be a string or number, not a complex object. See: " ++
        ZOHO_DESK_CREATE_TICKET_DOCS)

/-- Number of digits used by the model of `Date.prototype.toISOString`
for each date-time component, matching zero-padded decimal. -/
def padDigits (width : Nat) (n : Nat) : String :=
  String.mk ((List.range width).reverse.map (fun i => Nat.digitChar (n / 10 ^ i % 10)))

/-- Days-to-civil-date conversion (proleptic Gregorian calendar) used by
the model of `Date.prototype.toISOString`. -/
def civilFromDays (z0 : Int) : Int × Nat × Nat :=
  let z := z0 + 719468
  let era : Int := Int.fdiv z 146097
  let doe : Nat := (z - era * 146097).toNat
  let yoe : Nat := (doe - doe / 1460 + doe / 36524 - doe / 146096) / 365
  let y : Int := (yoe : Int) + era * 400
  let doy : Nat := doe - (365 * yoe + yoe / 4 - yoe / 100)
  let mp : Nat := (5 * doy + 2) / 153
  let d : Nat := doy - (153 * mp + 2) / 5 + 1
  let m : Nat := if mp < 10 then mp + 3 else mp - 9
  (if m ≤ 2 then y + 1 else y, m, d)

/-- Year field of the ISO string: four digits for 0..9999, the expanded
six-digit signed form otherwise. -/
def isoYearStr (y : Int) : String :=
  if 0 ≤ y ∧ y ≤ 9999 then padDigits 4 y.toNat
  else if y < 0 then "-" ++ padDigits 6 y.natAbs
  else "+" ++ padDigits 6 y.natAbs

/-- Date-and-time part (up to the seconds) of the modelled
`Date.prototype.toISOString` output for an epoch-milliseconds value. -/
def isoDatePart (t : Int) : String :=
  let days := Int.fdiv t 86400000
  let msOfDay : Nat := (Int.emod t 86400000).toNat
  let ymd := civilFromDays days
  isoYearStr ymd.1 ++ "-" ++ padDigits 2 ymd.2.1 ++ "-" ++ padDigits 2 ymd.2.2 ++
  "T" ++ padDigits 2 (msOfDay / 3600000) ++ ":" ++
  padDigits 2 (msOfDay / 60000 % 60) ++ ":" ++ padDigits 2 (msOfDay / 1000 % 60)

/-- Millisecond field of the modelled ISO string. -/
def isoMs (t : Int) : Nat := (Int.emod t 1000).toNat

/-- Model of `Date.prototype.toISOString` on an epoch-milliseconds
value: date-time part, dot, three millisecond digits and the `Z`
designator. -/
def toISOString (t : Int) : String :=
  isoDatePart t ++ "." ++ (padDigits 3 (isoMs t) ++ "Z")

/-- Embedding of `convertDateToTimestamp`; the host `new Date(...)`
parse is the external collaborator `dateParse`, returning epoch
milliseconds or `none` for an invalid date (`NaN`). -/
def convertDateToTimestamp (dateParse : String → Option Int)
    (dateString fieldName docsUrl : String) : Except String String :=
  if dateString = "" ∨ jsTrim dateString = "" then
    .error (fieldName ++ " cannot be empty. Expected ISO 8601 format (e.g., \"2025-11-20T10:30:00.000Z\"). See: " ++ docsUrl)
  else
    match dateParse dateString with
    | none =>
      .error ("Invalid " ++ fieldName ++ " format: \"" ++ dateString ++
        "\". Expected ISO 8601 format (e.g., \"2025-11-20T10:30:00.000Z\"). See: " ++ docsUrl)
    | some t => .ok (toISOString t)

/-- Due-date part of `addCommonTicketFields` (update path): a supplied
nonempty value is converted and canonicalized, a supplied empty value is
passed through as the "no change" sentinel. -/
def addDueDateUpdateField (dateParse : String → Option Int) (body : JSObj)
    (fields : JSObj) : Except String JSObj :=
  match getField fields "dueDate" with
  | .undefined => .ok body
  | dueDateValue =>
    if truthy dueDateValue ∧ jsTrim (jsToString dueDateValue) ≠ "" then
      (convertDateToTimestamp dateParse (jsToString dueDateValue)
        "Due Date" ZOHO_DESK_UPDATE_TICKET_DOCS).map
        (fun d => setField body "dueDate" (.str d))
    else
      .ok (setField body "dueDate" (.str ""))

/-- Priority part of `addCommonTicketFields` (update path): copied
whenever present, empty-but-present values included. -/
def addPriorityField (body : JSObj) (fields : JSObj) : JSObj :=
  match getField fields "priority" with
  | .undefined => body
  | p => setField body "priority" p

/-- Secondary-contacts part of `addCommonTicketFields`: comma list, set
only when at least one non-empty segment remains. -/
def addSecondaryContactsField (body : JSObj) (fields : JSObj) : JSObj :=
  match getField fields "secondaryContacts" with
  | .str s =>
    let contacts := parseCommaSeparatedList (some s)
    if contacts.length > 0 then
      setField body "secondaryContacts" (.arr (contacts.map JSVal.str))
    else
      body
  | _ => body

/-- Custom-fields part of `addCommonTicketFields`. -/
def addCfField (body : JSObj) (fields : JSObj) : Except String JSObj :=
  match getField fields "cf" with
  | .undefined => .ok body
  | cf => (parseCustomFields cf).map (fun parsed => setField body "cf" parsed)

/-- Embedding of `addCommonTicketFields`: the update path converts a
nonempty `dueDate` and passes an empty one through as the "no change"
sentinel, copies `priority` when present; both paths add
`secondaryContacts` (comma list) and `cf` (custom fields). -/
def addCommonTicketFields (dateParse : String → Option Int) (body : JSObj)
    (fields : JSObj) (includePriorityAndDueDate : Bool := true) :
    Except String JSObj := do
  let body ←
    (if includePriorityAndDueDate then
      (addDueDateUpdateField dateParse body fields).map
        (fun body2 => addPriorityField body2 fields)
    else
      Except.ok body)
  addCfField (addSecondaryContactsField body fields) fields

/-- Model of the JS `typeof` operator on our values. -/
def jsTypeof : JSVal → String
  | .undefined => "undefined"
  | .null => "object"
  | .bool _ => "boolean"
  | .num _ => "number"
  | .str _ => "string"
  | .arr _ => "object"
  | .obj _ => "object"

/-- Escaping of string content for the `JSON.stringify` model. -/
def jsonQuote (s : String) : String :=
  String.mk (Char.ofNat 34 ::
    (s.data.flatMap (fun c =>
      if c = Char.ofNat 34 then ['\\', Char.ofNat 34]
      else if c = '\\' then ['\\', '\\']
      else if c = '\n' then ['\\', 'n']
      else if c = '\r' then ['\\', 'r']
      else if c = '\t' then ['\\', 't']
      else [c])) ++ [Char.ofNat 34])

mutual

/-- Model of the host `JSON.stringify` (as interpolated into the node's
error messages; `undefined` at the top level renders as the string
`undefined`). -/
def jsonStringify : JSVal → String
  | .undefined => "undefined"
  | .null => "null"
  | .bool b => cond b "true" "false"
  | .num n => toString n
  | .str s => jsonQuote s
  | .arr xs => "[" ++ String.intercalate "," (jsonStringifyElems xs) ++ "]"
  | .obj fs => "\x7b" ++ String.intercalate "," (jsonStringifyFields fs) ++ "\x7d"

/-- Array elements under `JSON.stringify`: `undefined` renders `null`. -/
def jsonStringifyElems : List JSVal → List String
  | [] => []
  | .undefined :: rest => "null" :: jsonStringifyElems rest
  | v :: rest => jsonStringify v :: jsonStringifyElems rest

/-- Object members under `JSON.stringify`: `undefined` values are
skipped. -/
def jsonStringifyFields : List (String × JSVal) → List String
  | [] => []
  | (_, .undefined) :: rest => jsonStringifyFields rest
  | (k, v) :: rest => (jsonQuote k ++ ":" ++ jsonStringify v) :: jsonStringifyFields rest

end

/-- Model of the JS `in` operator for the shapes the node inspects. -/
def jsHasKey (v : JSVal) (k : String) : Bool :=
  match v with
  | .obj fs => fs.any (fun p => p.1 = k)
  | _ => false

/-- Model of `Object.keys` for the shapes the node inspects. -/
def jsKeys : JSVal → List String
  | .obj fs => fs.map Prod.fst
  | .arr xs => (List.range xs.length).map toString
  | _ => []

/-- Embedding of the response-shape validation inside the `getTeams`
dropdown loader (current revision): reject non-objects, a missing
`teams` property, and a non-array `teams` value with loud errors, then
map teams to dropdown options. -/
def getTeamsValidate (response : JSVal) : Except String (List JSVal) :=
  if ¬ truthy response ∨ jsTypeof response ≠ "object" then
    .error ("Invalid API response structure from Zoho Desk. Expected an object, received: " ++
      jsTypeof response ++ ". Response: " ++ jsonStringify response)
  else if ¬ jsHasKey response "teams" then
    .error ("Invalid API response structure from Zoho Desk. Missing \x27teams\x27 property. Response keys: " ++
      String.intercalate ", " (jsKeys response) ++ ". Response: " ++ jsonStringify response)
  else
    match jsIndex response "teams" with
    | .arr teams =>
      .ok (teams.map (fun team => JSVal.obj
        [("name", jsIndex team "name"), ("value", jsIndex team "id")]))
    | v =>
      .error ("Invalid API response structure from Zoho Desk. Expected \x27teams\x27 to be an array, received: " ++
        jsTypeof v ++ ". Response: " ++ jsonStringify response)

/-- Embedding of the `getTeams` loader body after the request: the
`catch` turns any failure into a single synthetic error option. -/
def getTeamsLoad (requestResult : Except String JSVal) : List JSVal :=
  match requestResult.bind getTeamsValidate with
  | .ok options => options
  | .error e =>
    [JSVal.obj [("name", .str ("⚠️ Error loading teams: " ++ e)), ("value", .str "")]]

/-- Extraction step `(response[dataKey] as IDataObject[]) || []` of the
pagination helper followed by the `push(...items)` spread: a falsy
value coerces to the empty page, arrays spread to their elements,
strings (iterable) spread to their characters, any other truthy value
makes the spread throw (`none`). -/
def pageItems (resp : JSVal) (dataKey : String) : Option (List JSVal) :=
  let v := jsIndex resp dataKey
  if truthy v then
    match v with
    | .arr xs => some xs
    | .str s => some (s.data.map (fun c => JSVal.str (String.mk [c])))
    | _ => none
  else
    some []

/-- Result of a terminating run of the pagination helper: the
accumulated items and the `from` offsets of the requests issued, in
order. -/
structure PaginationRun where
  items : List JSVal
  calls : List Nat

/-- Loop of `getAllPaginatedItems`, fuelled (the source loop has no
iteration bound; `none` means the fuel ran out before the loop hit a
short page). -/
def getAllPaginatedItemsLoop (request : Nat → Except String JSVal) (limit : Nat)
    (dataKey : String) :
    Nat → Nat → List JSVal → List Nat → Option (Except String PaginationRun)
  | 0, _, _, _ => none
  | fuel + 1, fromOffset, acc, calls =>
    match request fromOffset with
    | .error e => some (.error e)
    | .ok resp =>
      match pageItems resp dataKey with
      | none => some (.error "TypeError: items is not iterable")
      | some xs =>
        if xs.length < limit then
          some (.ok ⟨acc ++ xs, calls ++ [fromOffset]⟩)
        else
          getAllPaginatedItemsLoop request limit dataKey fuel (fromOffset + limit)
            (acc ++ xs) (calls ++ [fromOffset])

/-- Embedding of `getAllPaginatedItems`: start at offset 1 with an empty
accumulator; `request` is the transport collaborator keyed by the `from`
query parameter (the `limit` parameter is fixed per run). -/
def getAllPaginatedItems (request : Nat → Except String JSVal) (limit : Nat)
    (fuel : Nat) (dataKey : String := "data") : Option (Except String PaginationRun) :=
  getAllPaginatedItemsLoop request limit dataKey fuel 1 [] []

/-- Rate-limit message produced by the `execute` catch handler for HTTP
status 429. -/
def rateLimitMessage : String :=
  "Zoho Desk API rate limit exceeded (10 requests/second per organization). " ++
  "Please wait a moment and try again, or reduce the number of items being processed."

/-- Outcome of one input item's `try` block: the value pushed on
success, or the thrown error with the optional HTTP status fields the
catch handler inspects. -/
inductive ItemOutcome where
  | ok (v : JSVal)
  | err (message : String) (statusCode : Option Int) (code : Option Int)

/-- Embedding of the `execute` catch handler for a single thrown error:
HTTP 429 is rewritten to the rate-limit message; with `continueOnFail`
the message is folded into an `\x7berror: ...\x7d` record, otherwise it
is rethrown. -/
def handleCatch (message : String) (statusCode code : Option Int)
    (continueOnFail : Bool) : Except String JSVal :=
  if statusCode = some 429 ∨ code = some 429 then
    if continueOnFail then .ok (.obj [("error", .str rateLimitMessage)])
    else .error rateLimitMessage
  else
    if continueOnFail then .ok (.obj [("error", .str message)])
    else .error message

/-- Embedding of the per-item `execute` loop around the catch handler:
sequentially handle each item's outcome; an uncaught error aborts the
loop.  Also returns how many items were attempted (each item's request
is issued at most once — there is no retry). -/
def processItems : List ItemOutcome → Bool → Except String (List JSVal) × Nat
  | [], _ => (.ok [], 0)
  | o :: rest, continueOnFail =>
    let handled : Except String JSVal :=
      match o with
      | .ok v => .ok v
      | .err m sc c => handleCatch m sc c continueOnFail
    match handled with
    | .error e => (.error e, 1)
    | .ok out =>
      match processItems rest continueOnFail with
      | (.ok vs, n) => (.ok (out :: vs), n + 1)
      | (.error e, n) => (.error e, n + 1)

/-- Embedding of the ticket delete operation: validate the ticket ID,
issue the `moveToTrash` request (its response body is not inspected) and
push `\x7bsuccess: true, ticketId\x7d`. -/
def ticketDelete (ticketId : String) (moveToTrash : Except String JSVal) :
    Except String JSVal :=
  if !isValidTicketId ticketId then
    .error ("Invalid ticket ID format: \"" ++ ticketId ++
      "\". Ticket ID must be a numeric value. See: " ++ ZOHO_DESK_UPDATE_TICKET_DOCS)
  else do
    let _ ← moveToTrash
    .ok (.obj [("success", .bool true), ("ticketId", .str ticketId)])

/-- Embedding of the contact delete operation. -/
def contactDelete (contactId : String) (moveToTrash : Except String JSVal) :
    Except String JSVal := do
  let _ ← isValidZohoDeskId contactId "Contact ID"
  let _ ← moveToTrash
  .ok (.obj [("success", .bool true), ("contactId", .str contactId)])

/-- Embedding of the account delete operation. -/
def accountDelete (accountId : String) (moveToTrash : Except String JSVal) :
    Except String JSVal := do
  let _ ← isValidZohoDeskId accountId "Account ID"
  let _ ← moveToTrash
  .ok (.obj [("success", .bool true), ("accountId", .str accountId)])

/-- Embedding of `TICKET_CREATE_OPTIONAL_FIELDS` (current revision). -/
def TICKET_CREATE_OPTIONAL_FIELDS : List String :=
  ["accountId", "assigneeId", "category", "channel", "email", "language",
   "phone", "productId", "resolution", "status", "subCategory"]

/-- Embedding of the per-fragment part of the current revision's ticket
create contact handling: when the supplied fragment has at least one
non-empty value it is built via `addContactField` and must end up with a
non-empty `email` or `lastName`; an all-empty fragment is skipped with
no error. -/
def ticketCreateContactValues (body : JSObj) (contactValues : JSObj) :
    Except String JSObj :=
  let hasNonEmptyValue := contactValues.any (fun p =>
    truthy p.2 ∧ jsTrim (jsToString p.2) ≠ "")
  if hasNonEmptyValue then do
    let contact ← addContactField [] contactValues "email" "email"
      (FIELD_LENGTH_LIMITS.lookup "email")
    let contact ← addContactField contact contactValues "lastName" "lastName" none
    let contact ← addContactField contact contactValues "firstName" "firstName" none
    let contact ← addContactField contact contactValues "phone" "phone" none
    if ¬ truthy (getField contact "email") ∧ ¬ truthy (getField contact "lastName") then
      .error ("Contact validation failed: Either email or lastName must be provided. See: " ++
        ZOHO_DESK_CREATE_TICKET_DOCS)
    else
      .ok (setField body "contact" (.obj contact))
  else
    .ok body

/-- Embedding of the contact handling inside the current revision's
ticket create: the fragment is optional (skipped when absent or falsy),
must be a plain object, and is otherwise processed by
`ticketCreateContactValues`. -/
def ticketCreateContact (body : JSObj) (contactData : JSVal) :
    Except String JSObj :=
  if truthy contactData ∧ truthy (jsIndex contactData "contactValues") then
    match jsIndex contactData "contactValues" with
    | .obj contactValues => ticketCreateContactValues body contactValues
    | _ =>
      .error ("Contact validation failed: Invalid contact data format. See: " ++
        ZOHO_DESK_CREATE_TICKET_DOCS)
  else
    .ok body

/-- Node parameters read by the current revision's ticket create
operation. -/
structure TicketCreateParams where
  departmentId : String
  teamId : String
  subject : String
  contact : JSVal
  priority : String
  classification : String
  dueDate : String
  description : String
  additionalFields : JSObj

/-- Embedding of the current revision's ticket create payload
construction (`execute`, ticket/create): primary fields, optional
`teamId`, canonicalized `dueDate`, optional `description`, the contact
fragment, the common ticket fields (without priority/dueDate) and the
optional-field table. -/
def buildTicketCreateBody (dateParse : String → Option Int)
    (p : TicketCreateParams) : Except String JSObj := do
  let subject ← validateFieldLength p.subject none (some "Subject")
  let body : JSObj :=
    [("departmentId", .str p.departmentId), ("subject", .str subject),
     ("priority", .str p.priority), ("classification", .str p.classification)]
  let body :=
    if p.teamId ≠ "" ∧ jsTrim p.teamId ≠ "" then
      setField body "teamId" (.str p.teamId)
    else body
  let body ←
    (if p.dueDate ≠ "" ∧ jsTrim p.dueDate ≠ "" then do
      let d ← convertDateToTimestamp dateParse p.dueDate "Due Date"
        ZOHO_DESK_CREATE_TICKET_DOCS
      Except.ok (setField body "dueDate" (.str d))
    else Except.ok body)
  let body ←
    (if p.description ≠ "" then do
      let d ← validateFieldLength p.description none (some "Description")
      Except.ok (setField body "description" (.str d))
    else Except.ok body)
  let body ← ticketCreateContact body p.contact
  let body ← addCommonTicketFields dateParse body p.additionalFields false
  addOptionalFields body p.additionalFields TICKET_CREATE_OPTIONAL_FIELDS

/-- Contact input of the end-to-end ticket-create scenario. -/
def scenarioContact : JSVal :=
  .obj [("contactValues", .obj [("email", .str "a@b.com"), ("lastName", .str "Doe")])]

/-- Node parameters of the end-to-end ticket-create scenario
(`priority`/`classification` at their UI defaults, `tags` supplied in
the additional fields). -/
def scenarioParams (priority classification : String) : TicketCreateParams :=
  ⟨"1892000000006907", "", "Help", scenarioContact, priority, classification,
   "2025-12-01T10:00:00", "", [("tags", .str "urgent, billing")]⟩

/-- Concrete stand-in for the host date parse in the closed scenario
runs: the scenario's due date resolves to the epoch milliseconds of
2025-12-01T10:00:00 UTC, everything else is an invalid date. -/
def scenarioDateParse : String → Option Int :=
  fun s => if s = "2025-12-01T10:00:00" then some 1764583200000 else none

/-- Fake transport of the pagination scenario: page size 2, pages
`[a,b]`, `[c,d]`, `[]` keyed by the `from` offset. -/
def scenarioPages : Nat → Except String JSVal :=
  fun fromOffset =>
    .ok (.obj [("data", .arr
      (if fromOffset = 1 then [.str "a", .str "b"]
       else if fromOffset = 3 then [.str "c", .str "d"]
       else []))])

/-- Value each item contributes to the output batch when per-item fault
tolerance is on: the pushed response on success, an
`\x7berror: ...\x7d` record otherwise (rate-limit message for HTTP
429). -/
def itemOutputTolerant : ItemOutcome → JSVal
  | .ok v => v
  | .err m sc c =>
    if sc = some 429 ∨ c = some 429 then .obj [("error", .str rateLimitMessage)]
    else .obj [("error", .str m)]


theorem containsSubstr_iff (s sub : String) :
    containsSubstr s sub = true ↔ sub.data <:+: s.data := by
  unfold containsSubstr
  simp only [List.any_eq_true, List.mem_range, decide_eq_true_eq]
  constructor
  · rintro ⟨i, hi, hEq⟩
    refine ⟨s.data.take i, (s.data.drop i).drop sub.data.length, ?_⟩
    have h2 : s.data.drop i = sub.data ++ (s.data.drop i).drop sub.data.length := by
      conv_lhs => rw [← List.take_append_drop sub.data.length (s.data.drop i)]
      rw [hEq]
    conv_rhs => rw [← List.take_append_drop i s.data, h2]
    simp [List.append_assoc]
  · rintro ⟨pre, suf, hEq⟩
    refine ⟨pre.length, ?_, ?_⟩
    · have hlen := congrArg List.length hEq
      simp only [List.length_append] at hlen
      omega
    · rw [← hEq, List.append_assoc, List.drop_left, List.take_left]

theorem containsSubstr_append_left (a b sub : String)
    (h : containsSubstr a sub = true) : containsSubstr (a ++ b) sub = true := by
  rw [containsSubstr_iff] at h ⊢
  rw [String.data_append]
  obtain ⟨pre, suf, hEq⟩ := h
  exact ⟨pre, suf ++ b.data, by rw [← hEq]; simp [List.append_assoc]⟩

theorem containsSubstr_append_right (a b sub : String)
    (h : containsSubstr b sub = true) : containsSubstr (a ++ b) sub = true := by
  rw [containsSubstr_iff] at h ⊢
  rw [String.data_append]
  obtain ⟨pre, suf, hEq⟩ := h
  exact ⟨a.data ++ pre, suf, by rw [← hEq]; simp [List.append_assoc]⟩

theorem lookup_map_overwrite (fs : JSObj) (k k2 : String) (v : JSVal) (h : k ≠ k2) :
    (fs.map (fun p => if p.1 = k2 then (k2, v) else p)).lookup k = fs.lookup k := by
  induction fs with
  | nil => rfl
  | cons p rest ih =>
    obtain ⟨pk, pv⟩ := p
    by_cases hp : pk = k2
    · subst hp
      have hbeq : (k == pk) = false := beq_eq_false_iff_ne.mpr h
      simpa [List.lookup_cons, hbeq] using ih
    · simp only [List.map_cons, List.lookup_cons, if_neg hp]
      cases hk : k == pk
      · exact ih
      · rfl

theorem lookup_append_single_ne (fs : JSObj) (k k2 : String) (v : JSVal)
    (h : k ≠ k2) : (fs ++ [(k2, v)]).lookup k = fs.lookup k := by
  induction fs with
  | nil =>
    have hbeq : (k == k2) = false := beq_eq_false_iff_ne.mpr h
    simp [List.lookup_cons, hbeq]
  | cons p rest ih =>
    obtain ⟨pk, pv⟩ := p
    simp only [List.cons_append, List.lookup_cons]
    cases hk : k == pk
    · exact ih
    · rfl

theorem lookupField_setField_ne (fs : JSObj) (k k2 : String) (v : JSVal)
    (h : k ≠ k2) : lookupField (setField fs k2 v) k = lookupField fs k := by
  unfold lookupField setField
  by_cases hAny : fs.any (fun p => p.1 = k2)
  · rw [if_pos hAny]
    exact lookup_map_overwrite fs k k2 v h
  · rw [if_neg hAny]
    exact lookup_append_single_ne fs k k2 v h

theorem lookup_map_overwrite_self (fs : JSObj) (k2 : String) (v : JSVal)
    (hAny : fs.any (fun p => p.1 = k2) = true) :
    (fs.map (fun p => if p.1 = k2 then (k2, v) else p)).lookup k2 = some v := by
  induction fs with
  | nil => simp at hAny
  | cons p rest ih =>
    obtain ⟨pk, pv⟩ := p
    by_cases hp : pk = k2
    · subst hp
      simp [List.lookup_cons]
    · simp only [List.any_cons, Bool.or_eq_true, decide_eq_true_eq] at hAny
      have hrest : rest.any (fun p => p.1 = k2) = true := by
        rcases hAny with hc | hc
        · exact absurd hc hp
        · exact hc
      have hbeq : (k2 == pk) = false := beq_eq_false_iff_ne.mpr (fun hh => hp hh.symm)
      simp only [List.map_cons, List.lookup_cons, if_neg hp, hbeq]
      exact ih hrest

theorem lookupField_setField_self (fs : JSObj) (k : String) (v : JSVal) :
    lookupField (setField fs k v) k = some v := by
  unfold lookupField setField
  by_cases hAny : fs.any (fun p => p.1 = k)
  · rw [if_pos hAny]
    exact lookup_map_overwrite_self fs k v hAny
  · rw [if_neg hAny]
    induction fs with
    | nil => simp [List.lookup_cons]
    | cons p rest ih =>
      obtain ⟨pk, pv⟩ := p
      simp only [List.any_cons, Bool.or_eq_true, decide_eq_true_eq, not_or] at hAny
      have hbeq : (k == pk) = false := beq_eq_false_iff_ne.mpr (fun hh => hAny.1 hh.symm)
      simp only [List.cons_append, List.lookup_cons, hbeq]
      exact ih hAny.2

/-- C6: every value containing an n8n templating placeholder of the form
`\x7b\x7b...\x7d\x7d` passes both the generic Zoho Desk ID check and
the ticket ID check unconditionally, regardless of digit content (and in
particular "\x7b\x7b$json.id\x7d\x7d" does); the 10-digit string
"1234567890" passes both checks; the 9-digit string "123456789" fails
both. -/
theorem claim_C6_identifier_validation :
    (∀ (s fieldName : String), n8nExpressionTest (jsTrim s) = true →
      isValidTicketId s = true ∧ isValidZohoDeskId s fieldName = .ok true) ∧
    isValidTicketId "1234567890" = true ∧
    isValidZohoDeskId "1234567890" "Account ID" = .ok true ∧
    isValidTicketId "123456789" = false ∧
    (isValidZohoDeskId "123456789" "Account ID").isOk = false ∧
    isValidTicketId "\x7b\x7b$json.id\x7d\x7d" = true ∧
    isValidZohoDeskId "\x7b\x7b$json.id\x7d\x7d" "Account ID" = .ok true := by
  refine ⟨?_, rfl, rfl, rfl, rfl, rfl, rfl⟩
  intro s fieldName h
  constructor
  · show (if n8nExpressionTest (jsTrim s) = true then true
      else ticketIdTest (jsTrim s)) = true
    rw [if_pos h]
  · show (if n8nExpressionTest (jsTrim s) = true then Except.ok true
      else if !zohoDeskIdTest (jsTrim s) then Except.error _ else Except.ok true) =
      Except.ok true
    rw [if_pos h]

/-- Witness for C6's universal placeholder clause at the concrete
expression "\x7b\x7b$json.id\x7d\x7d" (which contains no run of 10
digits) against both validators. -/
theorem claim_C6_identifier_validation_witness :
    isValidTicketId "\x7b\x7b$json.id\x7d\x7d" = true ∧
    isValidZohoDeskId "\x7b\x7b$json.id\x7d\x7d" "Department ID" = .ok true :=
  claim_C6_identifier_validation.1 "\x7b\x7b$json.id\x7d\x7d" "Department ID"
    (by decide)

/-- C7: for every field in the configured length table (`email` at 254),
a value of exactly the limit length validates successfully and is
returned unchanged, while a value of limit+1 is rejected (never
truncated) with an error citing both the configured limit and the
received length. -/
theorem claim_C7_field_length_limits :
    ∀ fieldName limit, (fieldName, limit) ∈ FIELD_LENGTH_LIMITS →
    ∀ (v : String) (displayName : Option String),
      (v.length = limit →
        validateFieldLength v (some limit) displayName = .ok v) ∧
      (v.length = limit + 1 →
        ∃ e, validateFieldLength v (some limit) displayName = .error e ∧
          containsSubstr e (toString limit) = true ∧
          containsSubstr e (toString (limit + 1)) = true) := by
  intro fieldName limit hmem v displayName
  simp only [FIELD_LENGTH_LIMITS, List.mem_singleton, Prod.mk.injEq] at hmem
  obtain ⟨rfl, rfl⟩ := hmem
  constructor
  · intro hlen
    show (if 254 ≠ 0 ∧ 254 < v.length then Except.error _ else Except.ok v) = Except.ok v
    rw [if_neg (by omega)]
  · intro hlen
    show ∃ e, (if 254 ≠ 0 ∧ 254 < v.length then Except.error
        ((displayName.getD "Field") ++ " exceeds maximum length of " ++
          toString 254 ++ " characters (" ++ toString v.length ++
          " provided). Please shorten your input and try again.")
      else Except.ok v) = Except.error e ∧
      containsSubstr e (toString 254) = true ∧
      containsSubstr e (toString (254 + 1)) = true
    rw [if_pos ⟨by omega, by omega⟩, hlen]
    refine ⟨_, rfl, ?_, ?_⟩
    · apply containsSubstr_append_left
      apply containsSubstr_append_left
      apply containsSubstr_append_left
      apply containsSubstr_append_right
      exact (containsSubstr_iff _ _).mpr (List.infix_refl _)
    · apply containsSubstr_append_left
      apply containsSubstr_append_right
      exact (containsSubstr_iff _ _).mpr (List.infix_refl _)

set_option maxRecDepth 4000 in
/-- Witness for C7 at the configured email limit: a 254-character value
passes, a 255-character value fails citing 254 and 255. -/
theorem claim_C7_field_length_limits_witness :
    validateFieldLength (String.mk (List.replicate 254 'x')) (some 254)
      (some "Email") = .ok (String.mk (List.replicate 254 'x')) ∧
    ∃ e, validateFieldLength (String.mk (List.replicate 255 'x')) (some 254)
        (some "Email") = .error e ∧
      containsSubstr e (toString 254) = true ∧
      containsSubstr e (toString (254 + 1)) = true :=
  ⟨(claim_C7_field_length_limits "email" 254 (by simp [FIELD_LENGTH_LIMITS])
      (String.mk (List.replicate 254 'x')) (some "Email")).1 (by decide),
   (claim_C7_field_length_limits "email" 254 (by simp [FIELD_LENGTH_LIMITS])
      (String.mk (List.replicate 255 'x')) (some "Email")).2 (by decide)⟩

theorem lookup_eq_none_of_not_mem_keys (fs : JSObj) (k : String)
    (h : k ∉ fs.map Prod.fst) : fs.lookup k = none := by
  induction fs with
  | nil => rfl
  | cons p rest ih =>
    obtain ⟨pk, pv⟩ := p
    simp only [List.map_cons, List.mem_cons, not_or] at h
    have hbeq : (k == pk) = false := beq_eq_false_iff_ne.mpr h.1
    simp only [List.lookup_cons, hbeq]
    exact ih h.2

theorem sanitizeCustomFieldsStep_eq (acc : JSObj) (pk : String) (pv : JSVal) :
    sanitizeCustomFieldsStep acc (pk, pv) =
      .ok (match pv with
        | .null => acc
        | .undefined => acc
        | .str s => setField acc pk (.str s)
        | v => setField acc pk v) := by
  cases pv <;> rfl

theorem sanitize_foldlM_frame (fs : JSObj) : ∀ acc res,
    fs.foldlM sanitizeCustomFieldsStep acc = .ok res →
    ∀ k, fs.lookup k = none → lookupField res k = lookupField acc k := by
  induction fs with
  | nil =>
    intro acc res h k _
    cases h
    rfl
  | cons p rest ih =>
    intro acc res h k hk
    obtain ⟨pk, pv⟩ := p
    rw [List.foldlM_cons, sanitizeCustomFieldsStep_eq] at h
    simp only [bind, Except.bind] at h
    cases hbeq : k == pk with
    | true =>
      simp only [List.lookup_cons, hbeq] at hk
      exact Option.noConfusion hk
    | false =>
      simp only [List.lookup_cons, hbeq] at hk
      have hne : k ≠ pk := ne_of_beq_false hbeq
      rw [ih _ res h k hk]
      cases pv with
      | null => rfl
      | undefined => rfl
      | str s => exact lookupField_setField_ne acc k pk _ hne
      | bool b => exact lookupField_setField_ne acc k pk _ hne
      | num n => exact lookupField_setField_ne acc k pk _ hne
      | arr xs => exact lookupField_setField_ne acc k pk _ hne
      | obj fs2 => exact lookupField_setField_ne acc k pk _ hne

theorem sanitize_foldlM_lookup (fs : JSObj) : ∀ acc res,
    (fs.map Prod.fst).Nodup → fs.foldlM sanitizeCustomFieldsStep acc = .ok res →
    ∀ k v, fs.lookup k = some v →
      ((v = .null ∨ v = .undefined) → lookupField res k = lookupField acc k) ∧
      ((v ≠ .null ∧ v ≠ .undefined ∧ (∀ s, v ≠ .str s)) →
        lookupField res k = some v) := by
  induction fs with
  | nil =>
    intro acc res _ _ k v hk
    cases hk
  | cons p rest ih =>
    intro acc res hnodup h k v hk
    obtain ⟨pk, pv⟩ := p
    rw [List.foldlM_cons, sanitizeCustomFieldsStep_eq] at h
    simp only [bind, Except.bind] at h
    simp only [List.map_cons, List.nodup_cons] at hnodup
    cases hbeq : k == pk with
    | true =>
      have hkpk : k = pk := eq_of_beq hbeq
      subst hkpk
      simp only [List.lookup_cons, hbeq] at hk
      have hrest : rest.lookup k = none :=
        lookup_eq_none_of_not_mem_keys rest k hnodup.1
      have hframe := sanitize_foldlM_frame rest _ res h k hrest
      injection hk with hpv
      subst hpv
      constructor
      · rintro (rfl | rfl) <;> rw [hframe]
      · rintro ⟨h1, h2, h3⟩
        rw [hframe]
        cases pv with
        | null => exact absurd rfl h1
        | undefined => exact absurd rfl h2
        | str s => exact absurd rfl (h3 s)
        | bool b => exact lookupField_setField_self acc k _
        | num n => exact lookupField_setField_self acc k _
        | arr xs => exact lookupField_setField_self acc k _
        | obj fs2 => exact lookupField_setField_self acc k _
    | false =>
      have hne : k ≠ pk := ne_of_beq_false hbeq
      simp only [List.lookup_cons, hbeq] at hk
      have hrec := ih _ res hnodup.2 h k v hk
      constructor
      · intro hv
        rw [hrec.1 hv]
        cases pv with
        | null => rfl
        | undefined => rfl
        | str s => exact lookupField_setField_ne acc k pk _ hne
        | bool b => exact lookupField_setField_ne acc k pk _ hne
        | num n => exact lookupField_setField_ne acc k pk _ hne
        | arr xs => exact lookupField_setField_ne acc k pk _ hne
        | obj fs2 => exact lookupField_setField_ne acc k pk _ hne
      · exact hrec.2

set_option maxRecDepth 8000 in
/-- C5: `'\x7b"cf_x":"y"\x7d'` parses to the object mapping `cf_x` to
`"y"`; `'[1,2]'` and `'"str"'` fail with the
custom-fields-must-be-an-object error; `'not json'` fails with the
underlying JSON parser's message embedded; and in a successfully parsed
object, `null`/`undefined` entries are dropped while non-string,
non-null entries pass through unchanged. -/
theorem claim_C5_parse_custom_fields :
    parseCustomFields (.str "\x7b\"cf_x\":\"y\"\x7d") = .ok (.obj [("cf_x", .str "y")]) ∧
    parseCustomFields (.str "[1,2]") = .error cfObjectErrorMsg ∧
    parseCustomFields (.str "\"str\"") = .error cfObjectErrorMsg ∧
    (∃ parserMsg, jsonParse "not json" = .error parserMsg ∧
      ∃ e, parseCustomFields (.str "not json") = .error e ∧
        containsSubstr e parserMsg = true) ∧
    (∀ fs res, (fs.map Prod.fst).Nodup → sanitizeCustomFields fs = .ok res →
      ∀ k v, fs.lookup k = some v →
        ((v = .null ∨ v = .undefined) → lookupField res k = none) ∧
        ((v ≠ .null ∧ v ≠ .undefined ∧ (∀ s, v ≠ .str s)) →
          lookupField res k = some v)) := by
  refine ⟨rfl, rfl, rfl, ⟨"Unexpected token n in JSON", rfl, _, rfl, by decide⟩, ?_⟩
  intro fs res hnodup h k v hk
  have hmain := sanitize_foldlM_lookup fs [] res hnodup h k v hk
  exact ⟨fun hv => hmain.1 hv, hmain.2⟩

/-- Witness for C5's general clause: in `\x7ba: null, b: 7\x7d` the null
entry is dropped and the numeric entry passes through. -/
theorem claim_C5_parse_custom_fields_witness :
    lookupField [("b", JSVal.num 7)] "a" = none ∧
    lookupField [("b", JSVal.num 7)] "b" = some (JSVal.num 7) :=
  ⟨((claim_C5_parse_custom_fields.2.2.2.2 [("a", .null), ("b", .num 7)]
      [("b", JSVal.num 7)] (by decide) rfl "a" .null rfl).1 (Or.inl rfl)),
   ((claim_C5_parse_custom_fields.2.2.2.2 [("a", .null), ("b", .num 7)]
      [("b", JSVal.num 7)] (by decide) rfl "b" (.num 7) rfl).2
      ⟨fun h => JSVal.noConfusion h, fun h => JSVal.noConfusion h,
       fun s h => JSVal.noConfusion h⟩)⟩

theorem paginate_loop_calls (request : Nat → Except String JSVal) (limit : Nat)
    (dataKey : String) : ∀ fuel fromOffset acc calls res,
    getAllPaginatedItemsLoop request limit dataKey fuel fromOffset acc calls =
      some (.ok res) →
    ∃ k, res.calls = calls ++ List.range' fromOffset k limit ∧ 1 ≤ k := by
  intro fuel
  induction fuel with
  | zero =>
    intro _ _ _ _ h
    cases h
  | succ n ih =>
    intro fromOffset acc calls res h
    unfold getAllPaginatedItemsLoop at h
    split at h
    · cases h
    · split at h
      · cases h
      · rename_i resp hreq xs hpage
        split at h
        · refine ⟨1, ?_, le_refl 1⟩
          simp only [Option.some.injEq, Except.ok.injEq] at h
          rw [← h]
          simp [List.range']
        · obtain ⟨k, hk, hk1⟩ := ih (fromOffset + limit) (acc ++ xs)
            (calls ++ [fromOffset]) res h
          refine ⟨k + 1, ?_, by omega⟩
          rw [hk, List.append_assoc]
          simp [List.range']

/-- C3: the paginated fetch helper starts at offset 1 and advances the
offset by the page size after each call (every successful run's request
offsets form the arithmetic progression 1, 1+limit, ...); in the
concrete scenario with page size 2 and pages [a,b], [c,d], [] it
accumulates [a,b,c,d] and issues exactly the 3 requests at offsets
1, 3, 5, stopping at the first page strictly shorter than the page
size. -/
theorem claim_C3_pagination :
    (∀ request limit dataKey fuel res,
       getAllPaginatedItems request limit fuel dataKey = some (.ok res) →
       ∃ k, res.calls = List.range' 1 k limit ∧ 1 ≤ k) ∧
    getAllPaginatedItems scenarioPages 2 10 "data" =
      some (.ok ⟨[.str "a", .str "b", .str "c", .str "d"], [1, 3, 5]⟩) ∧
    ([1, 3, 5] : List Nat).length = 3 := by
  refine ⟨?_, rfl, rfl⟩
  intro request limit dataKey fuel res h
  obtain ⟨k, hk, h1⟩ := paginate_loop_calls request limit dataKey fuel 1 [] [] res h
  exact ⟨k, by simpa using hk, h1⟩

/-- Witness for C3's general clause at the concrete scenario: the three
issued offsets 1, 3, 5 are the arithmetic progression starting at 1
with step 2. -/
theorem claim_C3_pagination_witness :
    ∃ k, ([1, 3, 5] : List Nat) = List.range' 1 k 2 ∧ 1 ≤ k :=
  claim_C3_pagination.1 scenarioPages 2 "data" 10
    ⟨[.str "a", .str "b", .str "c", .str "d"], [1, 3, 5]⟩ rfl

/-- C10: for every delete operation whose identifier passes validation
and whose moveToTrash request does not raise, the output record is
exactly `\x7bsuccess: true\x7d` plus the input identifier under its
resource key, for every possible response body (which is discarded). -/
theorem claim_C10_delete_output :
    ∀ (ticketId contactId accountId : String) (r1 r2 r3 : JSVal),
      (isValidTicketId ticketId = true →
        ticketDelete ticketId (.ok r1) =
          .ok (.obj [("success", .bool true), ("ticketId", .str ticketId)])) ∧
      (isValidZohoDeskId contactId "Contact ID" = .ok true →
        contactDelete contactId (.ok r2) =
          .ok (.obj [("success", .bool true), ("contactId", .str contactId)])) ∧
      (isValidZohoDeskId accountId "Account ID" = .ok true →
        accountDelete accountId (.ok r3) =
          .ok (.obj [("success", .bool true), ("accountId", .str accountId)])) := by
  intro tid cid aid r1 r2 r3
  refine ⟨?_, ?_, ?_⟩
  · intro h
    simp only [ticketDelete, h, Bool.not_true, Bool.false_eq_true, if_false]
    rfl
  · intro h
    simp only [contactDelete, h]
    rfl
  · intro h
    simp only [accountDelete, h]
    rfl

/-- Witness for C10 at valid concrete identifiers and a nonempty
response body that is discarded. -/
theorem claim_C10_delete_output_witness :
    ticketDelete "1234567890123456" (.ok (.obj [("ignored", .num 1)])) =
      .ok (.obj [("success", .bool true), ("ticketId", .str "1234567890123456")]) ∧
    contactDelete "1234567890" (.ok (.str "ignored")) =
      .ok (.obj [("success", .bool true), ("contactId", .str "1234567890")]) ∧
    accountDelete "9876543210" (.ok .null) =
      .ok (.obj [("success", .bool true), ("accountId", .str "9876543210")]) :=
  ⟨(claim_C10_delete_output "1234567890123456" "1234567890" "9876543210"
      (.obj [("ignored", .num 1)]) (.str "ignored") .null).1 rfl,
   (claim_C10_delete_output "1234567890123456" "1234567890" "9876543210"
      (.obj [("ignored", .num 1)]) (.str "ignored") .null).2.1 rfl,
   (claim_C10_delete_output "1234567890123456" "1234567890" "9876543210"
      (.obj [("ignored", .num 1)]) (.str "ignored") .null).2.2 rfl⟩

theorem handleCatch_tolerant (o : ItemOutcome) :
    (match o with
      | .ok v => Except.ok v
      | .err m sc c => handleCatch m sc c true) = .ok (itemOutputTolerant o) := by
  cases o with
  | ok v => rfl
  | err m sc c =>
    by_cases h429 : sc = some 429 ∨ c = some 429
    · simp [handleCatch, itemOutputTolerant, h429]
    · simp [handleCatch, itemOutputTolerant, h429]

theorem processItems_tolerant : ∀ outcomes,
    processItems outcomes true =
      (.ok (outcomes.map itemOutputTolerant), outcomes.length) := by
  intro outcomes
  induction outcomes with
  | nil => rfl
  | cons o rest ih =>
    unfold processItems
    rw [handleCatch_tolerant o, ih]
    rfl

theorem processItems_abort (pre : List JSVal) : ∀ m sc c post,
    ∃ e, processItems (pre.map .ok ++ .err m sc c :: post) false =
      (.error e, pre.length + 1) := by
  induction pre with
  | nil =>
    intro m sc c post
    by_cases h429 : sc = some 429 ∨ c = some 429
    · exact ⟨rateLimitMessage, by simp [processItems, handleCatch, h429]⟩
    · exact ⟨m, by simp [processItems, handleCatch, h429]⟩
  | cons v rest ih =>
    intro m sc c post
    obtain ⟨e, he⟩ := ih m sc c post
    refine ⟨e, ?_⟩
    simp only [List.map_cons, List.cons_append]
    unfold processItems
    rw [he]
    simp [List.length_cons]

set_option maxRecDepth 8000 in
/-- C8: with fault tolerance enabled, a thrown error carrying HTTP
status 429 on any item yields the record `\x7berror: <rate limit
message>\x7d` at that item's output slot (the message mentions the
10 requests/second rate) and every remaining item is still processed,
each exactly once (no retry); with fault tolerance disabled, the first
error of any kind aborts processing of the remaining items. -/
theorem claim_C8_rate_limit_handling :
    (∀ (pre : List JSVal) m sc c (post : List ItemOutcome),
       (sc = some 429 ∨ c = some 429) →
       ∃ outs, processItems (pre.map .ok ++ .err m sc c :: post) true =
           (.ok outs, pre.length + 1 + post.length) ∧
         outs.length = pre.length + 1 + post.length ∧
         outs[pre.length]? = some (.obj [("error", .str rateLimitMessage)])) ∧
    containsSubstr rateLimitMessage "10 requests/second" = true ∧
    (∀ (pre : List JSVal) m sc c (post : List ItemOutcome),
       ∃ e, processItems (pre.map .ok ++ .err m sc c :: post) false =
         (.error e, pre.length + 1)) := by
  refine ⟨?_, by decide, processItems_abort⟩
  intro pre m sc c post h429
  have htot := processItems_tolerant (pre.map .ok ++ .err m sc c :: post)
  have hlen : (pre.map ItemOutcome.ok ++ .err m sc c :: post).length =
      pre.length + 1 + post.length := by
    simp [List.length_append, List.length_map]
    omega
  refine ⟨(pre.map ItemOutcome.ok ++ .err m sc c :: post).map itemOutputTolerant,
    by rw [htot, hlen], by simp [List.length_map, hlen]; omega, ?_⟩
  rw [List.map_append, List.map_cons]
  rw [List.getElem?_append_right (by simp [List.length_map])]
  simp only [List.length_map, Nat.sub_self, List.getElem?_cons_zero]
  simp [itemOutputTolerant, h429]

/-- Witness for C8 at a single 429-failing item: with fault tolerance
the batch output is one rate-limit error record, without it the batch
aborts after that item. -/
theorem claim_C8_rate_limit_handling_witness :
    (∃ outs, processItems [.err "HTTP 429" (some 429) none] true = (.ok outs, 0 + 1 + 0) ∧
       outs.length = 0 + 1 + 0 ∧
       outs[0]? = some (.obj [("error", .str rateLimitMessage)])) ∧
    (∃ e, processItems [.err "HTTP 429" (some 429) none] false = (.error e, 0 + 1)) :=
  ⟨claim_C8_rate_limit_handling.1 [] "HTTP 429" (some 429) none [] (Or.inl rfl),
   claim_C8_rate_limit_handling.2.2 [] "HTTP 429" (some 429) none []⟩

set_option maxRecDepth 8000 in
/-- C4: the contact fragment `\x7blastName: "Doe"\x7d` succeeds;
`\x7bfirstName: "Jane"\x7d` alone fails with a contact validation error;
`\x7bemail: "a@b.com", lastName: ""\x7d` succeeds with email alone; and
the email-or-lastName check is skipped entirely (no error) whenever
every supplied fragment field is empty. -/
theorem claim_C4_contact_fragment :
    ticketCreateContact [] (.obj [("contactValues", .obj [("lastName", .str "Doe")])]) =
      .ok [("contact", .obj [("lastName", .str "Doe")])] ∧
    (∃ e, ticketCreateContact []
        (.obj [("contactValues", .obj [("firstName", .str "Jane")])]) = .error e ∧
      containsSubstr e "Contact validation failed" = true) ∧
    ticketCreateContact [] (.obj [("contactValues",
        .obj [("email", .str "a@b.com"), ("lastName", .str "")])]) =
      .ok [("contact", .obj [("email", .str "a@b.com")])] ∧
    (∀ (body : JSObj) (cvs : JSObj),
      (∀ kv ∈ cvs, ¬(truthy kv.2 = true ∧ jsTrim (jsToString kv.2) ≠ "")) →
      ticketCreateContact body (.obj [("contactValues", .obj cvs)]) = .ok body) := by
  refine ⟨rfl, ⟨_, rfl, by decide⟩, rfl, ?_⟩
  intro body cvs hempty
  have hfalse : cvs.any (fun p => truthy p.2 ∧ jsTrim (jsToString p.2) ≠ "") = false := by
    rw [List.any_eq_false]
    intro p hp
    simpa using hempty p hp
  have hdispatch : ticketCreateContact body (.obj [("contactValues", .obj cvs)]) =
      ticketCreateContactValues body cvs := rfl
  rw [hdispatch]
  unfold ticketCreateContactValues
  rw [hfalse]
  rfl

/-- Witness for C4's all-empty-fragment clause: a fragment holding an
empty email and a whitespace-only first name is skipped without any
error. -/
theorem claim_C4_contact_fragment_witness :
    ticketCreateContact [("departmentId", JSVal.str "1892000000006907")]
      (.obj [("contactValues", .obj [("email", .str ""), ("firstName", .str " ")])]) =
      .ok [("departmentId", JSVal.str "1892000000006907")] :=
  claim_C4_contact_fragment.2.2.2 [("departmentId", JSVal.str "1892000000006907")]
    [("email", .str ""), ("firstName", .str " ")] (by decide)

theorem addOptionalFieldsStep_ok_shape (source body : JSObj) (g : String)
    (body2 : JSObj) (h : addOptionalFieldsStep source body g = .ok body2) :
    body2 = body ∨ ∃ v, body2 = setField body g v := by
  cases hg : getField source g with
  | undefined =>
    simp only [addOptionalFieldsStep, hg] at h
    injection h with h2
    exact Or.inl h2.symm
  | str s =>
    simp only [addOptionalFieldsStep, hg] at h
    cases hid : (if strEndsWith g "Id" ∧ jsTrim s ≠ "" then
        isValidZohoDeskId s (capitalizeField g) else Except.ok true) with
    | error e =>
      rw [hid] at h
      simp only [bind, Except.bind] at h
      exact Except.noConfusion h
    | ok b =>
      rw [hid] at h
      simp only [bind, Except.bind] at h
      cases hval : validateFieldLength s (FIELD_LENGTH_LIMITS.lookup g)
          (some (capitalizeField g)) with
      | error e =>
        rw [hval] at h
        simp only [bind, Except.bind] at h
        exact Except.noConfusion h
      | ok v =>
        rw [hval] at h
        simp only [bind, Except.bind] at h
        injection h with h2
        exact Or.inr ⟨.str v, h2.symm⟩
  | null =>
    simp only [addOptionalFieldsStep, hg] at h
    injection h with h2
    exact Or.inr ⟨_, h2.symm⟩
  | bool b =>
    simp only [addOptionalFieldsStep, hg] at h
    injection h with h2
    exact Or.inr ⟨_, h2.symm⟩
  | num n =>
    simp only [addOptionalFieldsStep, hg] at h
    injection h with h2
    exact Or.inr ⟨_, h2.symm⟩
  | arr xs =>
    simp only [addOptionalFieldsStep, hg] at h
    injection h with h2
    exact Or.inr ⟨_, h2.symm⟩
  | obj fs2 =>
    simp only [addOptionalFieldsStep, hg] at h
    injection h with h2
    exact Or.inr ⟨_, h2.symm⟩

theorem addOptionalFields_undef_frame (source : JSObj) :
    ∀ (fields : List String) (body res : JSObj),
    addOptionalFields body source fields = .ok res →
    ∀ f, getField source f = .undefined → lookupField res f = lookupField body f := by
  intro fields
  induction fields with
  | nil =>
    intro body res h f _
    cases h
    rfl
  | cons g rest ih =>
    intro body res h f hf
    simp only [addOptionalFields, List.foldlM_cons] at h
    cases hstep : addOptionalFieldsStep source body g with
    | error e =>
      rw [hstep] at h
      simp only [bind, Except.bind] at h
      exact Except.noConfusion h
    | ok body2 =>
      rw [hstep] at h
      simp only [bind, Except.bind] at h
      have hres := ih body2 res h f hf
      rw [hres]
      by_cases hfg : f = g
      · subst hfg
        simp only [addOptionalFieldsStep, hf] at hstep
        injection hstep with h2
        rw [h2]
      · rcases addOptionalFieldsStep_ok_shape source body g body2 hstep with rfl | ⟨v, rfl⟩
        · rfl
        · exact lookupField_setField_ne body f g v hfg

theorem addOptionalFieldsStep_empty_str (source body : JSObj) (f : String)
    (hf : getField source f = .str "") :
    addOptionalFieldsStep source body f = .ok (setField body f (.str "")) := by
  simp only [addOptionalFieldsStep, hf]
  rw [if_neg (fun hc => hc.2 rfl)]
  simp only [bind, Except.bind]
  cases hlk : FIELD_LENGTH_LIMITS.lookup f with
  | none => rfl
  | some m =>
    have hval : validateFieldLength "" (some m) (some (capitalizeField f)) = .ok "" := by
      show (if m ≠ 0 ∧ m < "".length then Except.error _ else Except.ok "") = Except.ok ""
      rw [if_neg (by simp)]
    rw [hval]

theorem addOptionalFields_empty_str (source : JSObj) :
    ∀ (fields : List String) (body res : JSObj),
    addOptionalFields body source fields = .ok res →
    ∀ f, getField source f = .str "" →
    (f ∈ fields ∨ lookupField body f = some (.str "")) →
    lookupField res f = some (.str "") := by
  intro fields
  induction fields with
  | nil =>
    intro body res h f _ hdisj
    cases h
    rcases hdisj with hmem | hlook
    · exact absurd hmem (List.not_mem_nil f)
    · exact hlook
  | cons g rest ih =>
    intro body res h f hf hdisj
    simp only [addOptionalFields, List.foldlM_cons] at h
    cases hstep : addOptionalFieldsStep source body g with
    | error e =>
      rw [hstep] at h
      simp only [bind, Except.bind] at h
      exact Except.noConfusion h
    | ok body2 =>
      rw [hstep] at h
      simp only [bind, Except.bind] at h
      apply ih body2 res h f hf
      by_cases hfg : f = g
      · subst hfg
        right
        have hstep2 := addOptionalFieldsStep_empty_str source body f hf
        rw [hstep] at hstep2
        injection hstep2 with h2
        rw [h2]
        exact lookupField_setField_self body f (.str "")
      · rcases hdisj with hmem | hlook
        · exact Or.inl ((List.mem_cons.mp hmem).resolve_left hfg)
        · right
          rcases addOptionalFieldsStep_ok_shape source body g body2 hstep with rfl | ⟨v, rfl⟩
          · exact hlook
          · rw [lookupField_setField_ne body f g v hfg]
            exact hlook

theorem lookup_addPriorityField_ne (body fields : JSObj) (k : String)
    (hk : k ≠ "priority") :
    lookupField (addPriorityField body fields) k = lookupField body k := by
  unfold addPriorityField
  cases getField fields "priority" with
  | undefined => rfl
  | null => exact lookupField_setField_ne body k "priority" _ hk
  | bool b => exact lookupField_setField_ne body k "priority" _ hk
  | num n => exact lookupField_setField_ne body k "priority" _ hk
  | str s => exact lookupField_setField_ne body k "priority" _ hk
  | arr xs => exact lookupField_setField_ne body k "priority" _ hk
  | obj fs => exact lookupField_setField_ne body k "priority" _ hk

theorem lookup_addSecondaryContactsField_ne (body fields : JSObj) (k : String)
    (hk : k ≠ "secondaryContacts") :
    lookupField (addSecondaryContactsField body fields) k = lookupField body k := by
  unfold addSecondaryContactsField
  cases getField fields "secondaryContacts" with
  | str s =>
    show lookupField
      (if (parseCommaSeparatedList (some s)).length > 0 then
        setField body "secondaryContacts"
          (.arr ((parseCommaSeparatedList (some s)).map JSVal.str))
      else body) k = lookupField body k
    by_cases hlen : (parseCommaSeparatedList (some s)).length > 0
    · rw [if_pos hlen]
      exact lookupField_setField_ne body k "secondaryContacts" _ hk
    · rw [if_neg hlen]
  | undefined => rfl
  | null => rfl
  | bool b => rfl
  | num n => rfl
  | arr xs => rfl
  | obj fs => rfl

theorem exceptMap_setField_ok (pc : Except String JSVal) (body : JSObj)
    (key : String) (res : JSObj)
    (h : pc.map (fun parsed => setField body key parsed) = .ok res)
    (k : String) (hk : k ≠ key) : lookupField res k = lookupField body k := by
  cases pc with
  | error e =>
    simp only [Except.map] at h
    exact Except.noConfusion h
  | ok parsed =>
    simp only [Except.map] at h
    injection h with h2
    rw [← h2]
    exact lookupField_setField_ne body k key _ hk

theorem lookup_addCfField_ne (body fields res : JSObj)
    (h : addCfField body fields = .ok res) (k : String) (hk : k ≠ "cf") :
    lookupField res k = lookupField body k := by
  cases hcf : getField fields "cf" with
  | undefined =>
    simp only [addCfField, hcf] at h
    injection h with h2
    rw [← h2]
  | null =>
    simp only [addCfField, hcf] at h
    exact exceptMap_setField_ok _ _ _ _ h k hk
  | bool b =>
    simp only [addCfField, hcf] at h
    exact exceptMap_setField_ok _ _ _ _ h k hk
  | num n =>
    simp only [addCfField, hcf] at h
    exact exceptMap_setField_ok _ _ _ _ h k hk
  | str s =>
    simp only [addCfField, hcf] at h
    exact exceptMap_setField_ok _ _ _ _ h k hk
  | arr xs =>
    simp only [addCfField, hcf] at h
    exact exceptMap_setField_ok _ _ _ _ h k hk
  | obj fs =>
    simp only [addCfField, hcf] at h
    exact exceptMap_setField_ok _ _ _ _ h k hk

theorem addCommonTicketFields_empty_due (dateParse : String → Option Int)
    (fields res : JSObj)
    (h : addCommonTicketFields dateParse [] fields true = .ok res)
    (hdue : getField fields "dueDate" = .str "") :
    lookupField res "dueDate" = some (.str "") := by
  have hdd : addDueDateUpdateField dateParse [] fields = .ok [("dueDate", .str "")] := by
    simp only [addDueDateUpdateField, hdue]
    rw [if_neg (by simp [truthy])]
    rfl
  have hunfold : addCommonTicketFields dateParse [] fields true =
      (addDueDateUpdateField dateParse [] fields).map
        (fun body2 => addPriorityField body2 fields) >>= fun body =>
        addCfField (addSecondaryContactsField body fields) fields := rfl
  rw [hunfold, hdd] at h
  simp only [Except.map, bind, Except.bind] at h
  rw [lookup_addCfField_ne _ fields res h "dueDate" (by decide),
    lookup_addSecondaryContactsField_ne _ fields "dueDate" (by decide),
    lookup_addPriorityField_ne _ fields "dueDate" (by decide)]
  rfl

/-- C9: for every operation's optional-field copy loop, the constructed
payload contains a key only if the source value was not `undefined`
(fields whose source is `undefined` are never added); empty-string
values that are present in the source are copied into the payload as
empty-but-present entries; and the update path's empty-string `dueDate`
"no change" sentinel is likewise passed through as an empty-but-present
entry. -/
theorem claim_C9_undefined_and_empty_fields :
    (∀ (source : JSObj) (fields : List String) (res : JSObj),
      addOptionalFields [] source fields = .ok res →
      ∀ f, getField source f = .undefined → lookupField res f = none) ∧
    (∀ (source : JSObj) (fields : List String) (res : JSObj),
      addOptionalFields [] source fields = .ok res →
      ∀ f, f ∈ fields → getField source f = .str "" →
        lookupField res f = some (.str "")) ∧
    (∀ (dateParse : String → Option Int) (fields res : JSObj),
      addCommonTicketFields dateParse [] fields true = .ok res →
      getField fields "dueDate" = .str "" →
      lookupField res "dueDate" = some (.str "")) := by
  refine ⟨?_, ?_, ?_⟩
  · intro source fields res h f hf
    exact addOptionalFields_undef_frame source fields [] res h f hf
  · intro source fields res h f hmem hf
    exact addOptionalFields_empty_str source fields [] res h f hf (Or.inl hmem)
  · intro dateParse fields res h hdue
    exact addCommonTicketFields_empty_due dateParse fields res h hdue

/-- Witness for C9 on a small update-fields source: an undefined field
is absent from the payload, an empty-string field is present and empty,
and the empty dueDate sentinel is preserved by the common-fields
helper. -/
theorem claim_C9_undefined_and_empty_fields_witness :
    lookupField [("status", JSVal.str "")] "subject" = none ∧
    lookupField [("status", JSVal.str "")] "status" = some (.str "") ∧
    lookupField [("dueDate", JSVal.str "")] "dueDate" = some (.str "") :=
  ⟨claim_C9_undefined_and_empty_fields.1 [("status", JSVal.str "")]
      ["subject", "status"] [("status", JSVal.str "")] rfl "subject" rfl,
   claim_C9_undefined_and_empty_fields.2.1 [("status", JSVal.str "")]
      ["subject", "status"] [("status", JSVal.str "")] rfl "status"
      (by decide) rfl,
   claim_C9_undefined_and_empty_fields.2.2 (fun _ => none)
      [("dueDate", JSVal.str "")] [("dueDate", JSVal.str "")] rfl rfl⟩

/-- C2 counterexample: a paginated list read whose response object lacks
the expected `data` key does not fail loudly — the helper coerces the
missing key to an empty page and returns an empty success after a single
request. -/
theorem claim_C2_counterexample :
    getAllPaginatedItems (fun _ => .ok (.obj [("junk", .num 1)])) 100 10 "data" =
      some (.ok ⟨[], [1]⟩) := rfl

set_option maxRecDepth 8000 in
/-- C2 (amended): only the teams dropdown loader validates the response
shape — it fails loudly when the `teams` key is absent (naming the
missing property) or not an array; the paginated fetch helper instead
treats a missing `data` key as an empty page and silently returns an
empty result. -/
theorem claim_C2_list_read_validation :
    (∀ (resp : JSVal) (limit fuel : Nat), 0 < limit → 0 < fuel →
       jsIndex resp "data" = .undefined →
       getAllPaginatedItems (fun _ => .ok resp) limit fuel "data" =
         some (.ok ⟨[], [1]⟩)) ∧
    (∀ fs : JSObj, (fs.any (fun p => p.1 = "teams")) = false →
       ∃ e, getTeamsValidate (.obj fs) = .error e ∧
         containsSubstr e "Missing \x27teams\x27 property" = true) ∧
    (∀ (fs : JSObj) (v : JSVal), jsHasKey (.obj fs) "teams" = true →
       jsIndex (.obj fs) "teams" = v → (∀ xs, v ≠ .arr xs) →
       ∃ e, getTeamsValidate (.obj fs) = .error e) := by
  refine ⟨?_, ?_, ?_⟩
  · intro resp limit fuel hl hf hdata
    obtain ⟨n, rfl⟩ : ∃ n, fuel = n + 1 := ⟨fuel - 1, by omega⟩
    have hpage : pageItems resp "data" = some [] := by
      unfold pageItems
      rw [hdata]
      rfl
    show getAllPaginatedItemsLoop _ limit "data" (n + 1) 1 [] [] = _
    unfold getAllPaginatedItemsLoop
    simp [hpage, hl]
  · intro fs hteams
    unfold getTeamsValidate
    rw [if_neg (by simp [truthy, jsTypeof]), if_pos (by simp [jsHasKey, hteams])]
    refine ⟨_, rfl, ?_⟩
    apply containsSubstr_append_left
    apply containsSubstr_append_left
    apply containsSubstr_append_left
    decide
  · intro fs v hkey hv hnotarr
    unfold getTeamsValidate
    rw [if_neg (by simp [truthy, jsTypeof]), if_neg (by simp [hkey])]
    rw [hv]
    cases v with
    | arr xs => exact absurd rfl (hnotarr xs)
    | undefined => exact ⟨_, rfl⟩
    | null => exact ⟨_, rfl⟩
    | bool b => exact ⟨_, rfl⟩
    | num n => exact ⟨_, rfl⟩
    | str s => exact ⟨_, rfl⟩
    | obj fs2 => exact ⟨_, rfl⟩

/-- Witness for C2 (amended): the missing-key response silently yields
an empty page, while the teams loader rejects both a response without
`teams` and a non-array `teams`. -/
theorem claim_C2_list_read_validation_witness :
    getAllPaginatedItems (fun _ => .ok (.obj [("junk", .num 1)])) 100 10 "data" =
      some (.ok ⟨[], [1]⟩) ∧
    (∃ e, getTeamsValidate (.obj [("junk", .num 1)]) = .error e ∧
      containsSubstr e "Missing \x27teams\x27 property" = true) ∧
    (∃ e, getTeamsValidate (.obj [("teams", .num 5)]) = .error e) :=
  ⟨claim_C2_list_read_validation.1 (.obj [("junk", .num 1)]) 100 10
      (by decide) (by decide) rfl,
   claim_C2_list_read_validation.2.1 [("junk", .num 1)] rfl,
   claim_C2_list_read_validation.2.2 [("teams", .num 5)] (.num 5) rfl rfl
      (fun xs h => JSVal.noConfusion h)⟩

set_option maxRecDepth 20000 in
/-- C1 counterexample: the current revision's ticket-create payload
builder, run on exactly the scenario inputs (departmentId
1892000000006907, subject "Help", contact email/lastName, dueDate
2025-12-01T10:00:00, tags "urgent, billing"), succeeds but produces no
`tags` key at all — so the payload does not contain
`tags = ["urgent", "billing"]` as the claim states. -/
theorem claim_C1_counterexample :
    (buildTicketCreateBody scenarioDateParse
        (scenarioParams "Medium" "Question")).map
      (fun body => lookupField body "tags") = .ok none := rfl

theorem digitChar_mod_isDigit (m : Nat) : (Nat.digitChar (m % 10)).isDigit = true := by
  have h10 : m % 10 < 10 := Nat.mod_lt _ (by omega)
  set k := m % 10 with hk
  interval_cases k <;> rfl

theorem padDigits_three_digits (n : Nat) :
    (padDigits 3 n).data.all Char.isDigit = true := by
  show ([Nat.digitChar (n / 10 ^ 2 % 10), Nat.digitChar (n / 10 ^ 1 % 10),
    Nat.digitChar (n / 10 ^ 0 % 10)].all Char.isDigit) = true
  simp only [List.all_cons, List.all_nil, Bool.and_true, Bool.and_eq_true]
  exact ⟨digitChar_mod_isDigit _, digitChar_mod_isDigit _, digitChar_mod_isDigit _⟩

set_option maxRecDepth 20000 in
/-- C1 (amended): building the current revision's ticket-create payload
from the scenario inputs yields a payload containing the departmentId,
the subject, a contact object with exactly the keys email and lastName,
and a canonicalized dueDate ending in `Z` with a three-digit
milliseconds field (for any epoch instant the host date parse assigns
the input) — but no `tags` entry: the tags input is ignored by the
current ticket-create builder; the comma-list conversion of
"urgent, billing" to ["urgent", "billing"] exists (it is
`parseCommaSeparatedList`) but is wired to ticket create only in
earlier revisions, which in turn pass `dueDate` through unconverted. -/
theorem claim_C1_ticket_create_payload :
    ∀ (dateParse : String → Option Int) (t : Int) (priority classification : String),
    dateParse "2025-12-01T10:00:00" = some t →
    ∃ body, buildTicketCreateBody dateParse (scenarioParams priority classification) =
        .ok body ∧
      lookupField body "departmentId" = some (.str "1892000000006907") ∧
      lookupField body "subject" = some (.str "Help") ∧
      lookupField body "contact" =
        some (.obj [("email", .str "a@b.com"), ("lastName", .str "Doe")]) ∧
      (∃ pre ms, lookupField body "dueDate" = some (.str (pre ++ "." ++ (ms ++ "Z"))) ∧
        ms.length = 3 ∧ ms.data.all Char.isDigit = true) ∧
      lookupField body "tags" = none ∧
      parseCommaSeparatedList (some "urgent, billing") = ["urgent", "billing"] := by
  intro dateParse t priority classification h
  have hconv : convertDateToTimestamp dateParse "2025-12-01T10:00:00" "Due Date"
      ZOHO_DESK_CREATE_TICKET_DOCS = .ok (toISOString t) := by
    unfold convertDateToTimestamp
    rw [if_neg (by decide), h]
  have hbuild : buildTicketCreateBody dateParse (scenarioParams priority classification) =
      .ok [("departmentId", .str "1892000000006907"), ("subject", .str "Help"),
           ("priority", .str priority), ("classification", .str classification),
           ("dueDate", .str (toISOString t)),
           ("contact", .obj [("email", .str "a@b.com"), ("lastName", .str "Doe")])] := by
    unfold buildTicketCreateBody
    simp only [scenarioParams]
    rw [hconv]
    rfl
  refine ⟨_, hbuild, rfl, rfl, rfl, ⟨isoDatePart t, padDigits 3 (isoMs t), rfl, rfl,
    padDigits_three_digits (isoMs t)⟩, rfl, rfl⟩

set_option maxRecDepth 20000 in
/-- Witness for C1 (amended) at the concrete host parse mapping the
scenario due date to 2025-12-01T10:00:00 UTC and the UI default
priority/classification. -/
theorem claim_C1_ticket_create_payload_witness :
    ∃ body, buildTicketCreateBody scenarioDateParse
        (scenarioParams "Medium" "Question") = .ok body ∧
      lookupField body "departmentId" = some (.str "1892000000006907") ∧
      lookupField body "subject" = some (.str "Help") ∧
      lookupField body "contact" =
        some (.obj [("email", .str "a@b.com"), ("lastName", .str "Doe")]) ∧
      (∃ pre ms, lookupField body "dueDate" = some (.str (pre ++ "." ++ (ms ++ "Z"))) ∧
        ms.length = 3 ∧ ms.data.all Char.isDigit = true) ∧
      lookupField body "tags" = none ∧
      parseCommaSeparatedList (some "urgent, billing") = ["urgent", "billing"] :=
  claim_C1_ticket_create_payload scenarioDateParse 1764583200000 "Medium" "Question" rfl
